import Mathlib

set_option maxRecDepth 10000

/- Shallow embedding of the Zendesk Help Center client
   (src/zendesk-client.ts, class ZendeskClient).

   Modelling conventions:
   - JS strings are `String` / `List Char`;
   - JS `undefined` is `Option.none`;
   - JS objects are association lists (`List (String × _)`), a property
     read is `List.lookup`;
   - each JS `String.replace(/regex/g, ...)` call is an explicit leftmost
     scan (`replaceScan`) with a bespoke matcher reproducing the
     backtracking behaviour of the concrete regular expression. -/

-- ### Characters: ASCII classes, JS `\s`, case-insensitive comparison

def isAsciiUpper (c : Char) : Bool := decide (65 ≤ c.toNat ∧ c.toNat ≤ 90)

def isAsciiLower (c : Char) : Bool := decide (97 ≤ c.toNat ∧ c.toNat ≤ 122)

def isAsciiAlpha (c : Char) : Bool := isAsciiUpper c || isAsciiLower c

def isAsciiDigit (c : Char) : Bool := decide (48 ≤ c.toNat ∧ c.toNat ≤ 57)

def isAsciiAlnum (c : Char) : Bool := isAsciiAlpha c || isAsciiDigit c

/-- JS RegExp `\s`: ECMA-262 WhiteSpace and LineTerminator code points. -/
def isJsSpace (c : Char) : Bool := decide
  (c.toNat = 32 ∨ c.toNat = 9 ∨ c.toNat = 10 ∨ c.toNat = 13 ∨ c.toNat = 11 ∨
   c.toNat = 12 ∨ c.toNat = 160 ∨ c.toNat = 0x1680 ∨
   (0x2000 ≤ c.toNat ∧ c.toNat ≤ 0x200a) ∨ c.toNat = 0x2028 ∨ c.toNat = 0x2029 ∨
   c.toNat = 0x202f ∨ c.toNat = 0x205f ∨ c.toNat = 0x3000 ∨ c.toNat = 0xfeff)

/-- `a` is an ASCII capital letter and `b` is its lower-case form. -/
def upperLowerPair (a b : Char) : Bool :=
  isAsciiUpper a && decide (b.toNat = a.toNat + 32)

/-- Case-insensitive character equality (ASCII folding, as the regex `i` flag). -/
def charCIEq (a b : Char) : Bool := a == b || upperLowerPair a b || upperLowerPair b a

/-- Match a literal pattern case-insensitively against a prefix of the input;
on success return the rest of the input. -/
def matchCILit : List Char → List Char → Option (List Char)
  | [], l => some l
  | _ :: _, [] => none
  | p :: ps, c :: cs => if charCIEq p c then matchCILit ps cs else none

-- ### JS global regex replacement as a leftmost scan
--
-- A matcher receives the input suffix starting at the current scan position
-- and returns `some (replacement, n)` when the regex matches there,
-- consuming `n ≥ 1` characters, else `none`.  `replaceScanF` mirrors
-- `String.prototype.replace` with the `g` flag: try to match at each
-- position, emit the replacement and resume after the match, otherwise copy
-- one character.  The fuel argument (instantiated with the input length,
-- enough because every matcher consumes at least one character) makes the
-- recursion structural.

def replaceScanF (m : List Char → Option (List Char × Nat)) :
    Nat → List Char → List Char
  | _, [] => []
  | 0, l => l
  | fuel + 1, c :: cs =>
    match m (c :: cs) with
    | some (rep, n) => rep ++ replaceScanF m fuel (cs.drop (n - 1))
    | none => c :: replaceScanF m fuel cs

def replaceScan (m : List Char → Option (List Char × Nat)) (l : List Char) :
    List Char :=
  replaceScanF m l.length l

-- ### Matcher for `/<([a-z][a-z0-9]*)[^>]*>\s*<\/\1>/gi`  (empty tag pairs)
--
-- Only the captured tag name can backtrack: `[^>]*` is followed by the
-- literal `>` (excluded from the class) and `\s*` by the literal `<`
-- (not whitespace), so both are forced to their maximal runs.  The engine
-- therefore tries tag-name lengths from the longest down to 1.

def matchEmptyTagName (rest : List Char) : Nat → Option Nat
  | 0 => none
  | k + 1 =>
    let name := rest.take (k + 1)
    let rest1 := rest.drop (k + 1)
    let attrs := rest1.takeWhile (fun c => !(c == '>'))
    match rest1.drop attrs.length with
    | '>' :: rest3 =>
      let ws := rest3.takeWhile isJsSpace
      match rest3.drop ws.length with
      | '<' :: '/' :: rest5 =>
        match matchCILit name rest5 with
        | some ('>' :: _) =>
          some ((k + 1) + attrs.length + 1 + ws.length + 2 + (k + 1) + 1)
        | _ => matchEmptyTagName rest k
      | _ => matchEmptyTagName rest k
    | _ => matchEmptyTagName rest k

/-- Longest possible tag name `[a-z][a-z0-9]*` (case-insensitive) at the
front of `l`; 0 when none. -/
def maxTagName (l : List Char) : Nat :=
  match l with
  | c :: cs => if isAsciiAlpha c then 1 + (cs.takeWhile isAsciiAlnum).length else 0
  | [] => 0

def matchEmptyTag (l : List Char) : Option (List Char × Nat) :=
  match l with
  | c :: rest =>
    if c = '<' then
      (matchEmptyTagName rest (maxTagName rest)).map (fun n => ([], n + 1))
    else none
  | [] => none

-- ### Matcher for the attribute patterns (style, id, class, target, border):
-- whitespace+, the literal name with =, a quote, a run of non-quote
-- characters, a quote (the two quotes need not match), flags gi.
--
-- `nm` is the literal attribute text including `=`, e.g. `style=`.
-- The whitespace-plus is followed by a letter and the value run by a
-- quote: no backtracking.

def isQuote (c : Char) : Bool := c == '"' || decide (c.toNat = 39)

def matchAttr (nm : List Char) (l : List Char) : Option (List Char × Nat) :=
  match l with
  | c :: cs =>
    if isJsSpace c then
      let ws := cs.takeWhile isJsSpace
      match matchCILit nm (cs.drop ws.length) with
      | some (q :: rest3) =>
        if isQuote q then
          let v := rest3.takeWhile (fun c => !(isQuote c))
          match rest3.drop v.length with
          | q2 :: _ =>
            if isQuote q2 then
              some ([], 1 + ws.length + nm.length + 1 + v.length + 1)
            else none
          | [] => none
        else none
      | _ => none
    else none
  | [] => none

-- ### Matcher for `/<span[^>]*>([\s\S]*?)<\/span>/gi` (and `font`)
--
-- The lazy group stops at the first occurrence of the closing literal;
-- nothing follows it in the pattern, so no further backtracking occurs.

def findClose (close : List Char) : List Char → Option (List Char × Nat)
  | [] => none
  | c :: cs =>
    match matchCILit close (c :: cs) with
    | some _ => some ([], close.length)
    | none => (findClose close cs).map (fun p => (c :: p.1, p.2 + 1))

def matchWrapper (openLit close : List Char) (l : List Char) :
    Option (List Char × Nat) :=
  match matchCILit openLit l with
  | some rest1 =>
    let attrs := rest1.takeWhile (fun c => !(c == '>'))
    match rest1.drop attrs.length with
    | '>' :: rest2 =>
      (findClose close rest2).map
        (fun p => (p.1, openLit.length + attrs.length + 1 + p.2))
    | _ => none
  | none => none

-- ### Matcher for `/\n\s*\n/g`  (blank-line collapsing)
--
-- `\s*` is greedy and may itself contain `\n`; backtracking settles on the
-- last `\n` inside the maximal whitespace run after the initial `\n`.

def lastIdxOf (t : Char) : List Char → Option Nat
  | [] => none
  | a :: as =>
    match lastIdxOf t as with
    | some j => some (j + 1)
    | none => if a = t then some 0 else none

def matchBlankRun (l : List Char) : Option (List Char × Nat) :=
  match l with
  | c :: cs =>
    if c = '\n' then
      match lastIdxOf '\n' (cs.takeWhile isJsSpace) with
      | some j => some (['\n'], 1 + j + 1)
      | none => none
    else none
  | [] => none

-- ### Matcher for `/<td>\s*<p>(.*?)<\/p>\s*<\/td>/gi  (cell unwrapping)
--
-- `.` does not match `\n` (no `s` flag); the lazy group extends past a
-- `</p>` whose continuation `\s*<\/td>` fails.

def findTdContent : List Char → Option (List Char × Nat)
  | [] => none
  | c :: cs =>
    match matchCILit ['<', '/', 'p', '>'] (c :: cs) with
    | some rest3 =>
      let ws2 := rest3.takeWhile isJsSpace
      match matchCILit ['<', '/', 't', 'd', '>'] (rest3.drop ws2.length) with
      | some _ => some ([], 4 + ws2.length + 5)
      | none =>
        if c = '\n' then none
        else (findTdContent cs).map (fun p => (c :: p.1, p.2 + 1))
    | none =>
      if c = '\n' then none
      else (findTdContent cs).map (fun p => (c :: p.1, p.2 + 1))

def matchTdP (l : List Char) : Option (List Char × Nat) :=
  match matchCILit ['<', 't', 'd', '>'] l with
  | some rest1 =>
    let ws1 := rest1.takeWhile isJsSpace
    match matchCILit ['<', 'p', '>'] (rest1.drop ws1.length) with
    | some rest2 =>
      (findTdContent rest2).map
        (fun p =>
          (['<', 't', 'd', '>'] ++ p.1 ++ ['<', '/', 't', 'd', '>'],
            4 + ws1.length + 3 + p.2))
    | none => none
  | none => none

-- ### The cleanHtmlContent pipeline (ZendeskClient.cleanHtmlContent),
-- one stage per `replace` call, in source order.

def removeEmptyTags (s : String) : String := ⟨replaceScan matchEmptyTag s.data⟩

def stripStyleAttrs (s : String) : String :=
  ⟨replaceScan (matchAttr ['s', 't', 'y', 'l', 'e', '=']) s.data⟩

def stripIdAttrs (s : String) : String :=
  ⟨replaceScan (matchAttr ['i', 'd', '=']) s.data⟩

def stripClassAttrs (s : String) : String :=
  ⟨replaceScan (matchAttr ['c', 'l', 'a', 's', 's', '=']) s.data⟩

def stripTargetAttrs (s : String) : String :=
  ⟨replaceScan (matchAttr ['t', 'a', 'r', 'g', 'e', 't', '=']) s.data⟩

def stripBorderAttrs (s : String) : String :=
  ⟨replaceScan (matchAttr ['b', 'o', 'r', 'd', 'e', 'r', '=']) s.data⟩

def unwrapSpanTags (s : String) : String :=
  ⟨replaceScan (matchWrapper ['<', 's', 'p', 'a', 'n']
      ['<', '/', 's', 'p', 'a', 'n', '>']) s.data⟩

def unwrapFontTags (s : String) : String :=
  ⟨replaceScan (matchWrapper ['<', 'f', 'o', 'n', 't']
      ['<', '/', 'f', 'o', 'n', 't', '>']) s.data⟩

def collapseBlankLines (s : String) : String := ⟨replaceScan matchBlankRun s.data⟩

def collapseTdParagraphs (s : String) : String := ⟨replaceScan matchTdP s.data⟩

/-- The whole normalization pipeline on a (non-undefined) string, in the
exact order of the replace calls in the source. -/
def cleanHtmlString (s : String) : String :=
  collapseTdParagraphs (collapseBlankLines (unwrapFontTags (unwrapSpanTags
    (stripBorderAttrs (stripTargetAttrs (stripClassAttrs (stripIdAttrs
      (stripStyleAttrs (removeEmptyTags s)))))))))

/-- `cleanHtmlContent(html)`: `if (!html) return html` returns `undefined`
and `""` unchanged (both falsy); otherwise the pipeline runs. -/
def cleanHtmlContent (html : Option String) : Option String :=
  match html with
  | none => none
  | some s => if s = "" then some "" else some (cleanHtmlString s)

-- ### JSON values and articles (interfaces ZendeskArticle, responses)

inductive JsValue where
  | vNum (n : Int)
  | vStr (s : String)
  | vBool (b : Bool)
  | vNull
  | vStrList (elems : List String)
deriving DecidableEq

/-- A raw article as received from the remote service: an unconstrained
JSON object, i.e. an association list of defined properties. -/
abbrev RawArticle := List (String × JsValue)

/-- A JS object built by an object literal: every literal key is an own
property, possibly with value `undefined` (`none`). -/
abbrev ProjectedRecord := List (String × Option JsValue)

/-- `article.k` — property read, `undefined` when absent. -/
def getProp (article : RawArticle) (k : String) : Option JsValue :=
  article.lookup k

/-- `body` is typed `string | undefined` in the source interface; extract
it as a string when present. -/
def getBodyStr (article : RawArticle) : Option String :=
  match getProp article "body" with
  | some (JsValue.vStr s) => some s
  | _ => none

/-- The field set of a projected record (own property names). -/
def fieldNames (r : ProjectedRecord) : List String := r.map (fun p => p.1)

/-- The property names present on a raw article. -/
def rawKeys (article : RawArticle) : List String := article.map (fun p => p.1)

/-- The eight allow-listed fields of the search projection. -/
def searchAllowList : List String :=
  ["id", "url", "html_url", "author_id", "created_at", "updated_at", "title",
   "label_names"]

/-- The object literal built for each search result in
`ZendeskClient.searchArticles` (no `body` key at all). -/
def projectSearchArticle (article : RawArticle) : ProjectedRecord :=
  [("id", getProp article "id"), ("url", getProp article "url"),
   ("html_url", getProp article "html_url"),
   ("author_id", getProp article "author_id"),
   ("created_at", getProp article "created_at"),
   ("updated_at", getProp article "updated_at"),
   ("title", getProp article "title"),
   ("label_names", getProp article "label_names")]

/-- The object literal built in `ZendeskClient.getArticle`: the same eight
fields plus `body: this.cleanHtmlContent(data.article.body)`. -/
def projectArticleWithBody (article : RawArticle) : ProjectedRecord :=
  projectSearchArticle article ++
    [("body", (cleanHtmlContent (getBodyStr article)).map JsValue.vStr)]

-- ### Configuration and request building
-- (constructor, makeRequest auth, searchArticles/getArticle parameters)

structure ZendeskConfig where
  subdomain : String
  email : String
  apiToken : String
  defaultLocale : Option String
deriving DecidableEq

/-- `this.baseUrl` set in the constructor. -/
def clientBaseUrl (cfg : ZendeskConfig) : String :=
  "https://" ++ cfg.subdomain ++ ".zendesk.com/api/v2/help_center"

/-- `this.defaultLocale = config.defaultLocale || "en"` — JS truthiness:
an absent or empty string falls back to `"en"`. -/
def clientDefaultLocale (cfg : ZendeskConfig) : String :=
  match cfg.defaultLocale with
  | some s => if s = "" then "en" else s
  | none => "en"

inductive ParamValue where
  | pStr (s : String)
  | pNum (n : Int)
  | pBool (b : Bool)
deriving DecidableEq

structure BasicAuth where
  username : String
  password : String
deriving DecidableEq

/-- The outbound GET request description assembled by `makeRequest`
(url, query params, Basic auth credentials). -/
structure HttpRequest where
  url : String
  params : List (String × ParamValue)
  auth : BasicAuth
deriving DecidableEq

def lookupParam (r : HttpRequest) (k : String) : Option ParamValue :=
  r.params.lookup k

/-- Parameters of `searchArticles`; `none` is an omitted (undefined)
argument, which triggers the destructuring default. -/
structure SearchParams where
  query : String
  locale : Option String
  page : Option Int
  per_page : Option Int

/-- The request issued by `searchArticles`: destructuring defaults
`locale = this.defaultLocale, page = 1, per_page = 20`, endpoint
`{base}/articles/search.json`, and the Basic auth of `makeRequest`:
`{email}/token` / apiToken. -/
def buildSearchRequest (cfg : ZendeskConfig) (p : SearchParams) : HttpRequest :=
  { url := clientBaseUrl cfg ++ "/articles/search.json"
    params := [("query", ParamValue.pStr p.query),
      ("locale", ParamValue.pStr (p.locale.getD (clientDefaultLocale cfg))),
      ("page", ParamValue.pNum (p.page.getD 1)),
      ("per_page", ParamValue.pNum (p.per_page.getD 20))]
    auth := { username := cfg.email ++ "/token", password := cfg.apiToken } }

/-- The request issued by `getArticle`: endpoint `{base}/articles/{id}.json`,
locale defaulting as above, same auth. -/
def buildArticleRequest (cfg : ZendeskConfig) (id : Int)
    (locale : Option String) : HttpRequest :=
  { url := clientBaseUrl cfg ++ "/articles/" ++ toString id ++ ".json"
    params := [("locale",
      ParamValue.pStr (locale.getD (clientDefaultLocale cfg)))]
    auth := { username := cfg.email ++ "/token", password := cfg.apiToken } }

-- ### Number.parseInt and the argument handling of the chat loop

/-- Value of an ASCII hex digit. -/
def hexDigitVal (c : Char) : Option Nat :=
  if isAsciiDigit c then some (c.toNat - 48)
  else if decide (97 ≤ c.toNat ∧ c.toNat ≤ 102) then some (c.toNat - 87)
  else if decide (65 ≤ c.toNat ∧ c.toNat ≤ 70) then some (c.toNat - 55)
  else none

def digitInBase (base : Nat) (c : Char) : Option Nat :=
  match hexDigitVal c with
  | some d => if d < base then some d else none
  | none => none

def parseDigitsAux (base : Nat) (acc : Nat) : List Char → Nat
  | [] => acc
  | c :: cs =>
    match digitInBase base c with
    | some d => parseDigitsAux base (acc * base + d) cs
    | none => acc

/-- `Number.parseInt(s)` with the radix argument omitted: skip leading
whitespace, optional sign, `0x`/`0X` selects base 16, then the longest
digit prefix; `none` models `NaN` (no digits). -/
def jsParseInt (s : String) : Option Int :=
  let l := s.data.dropWhile isJsSpace
  let signed : Int × List Char :=
    match l with
    | c :: cs => if c = '-' then (-1, cs) else if c = '+' then (1, cs) else (1, l)
    | [] => (1, [])
  let based : Nat × List Char :=
    match signed.2 with
    | '0' :: c :: cs => if c = 'x' || c = 'X' then (16, cs) else (10, signed.2)
    | _ => (10, signed.2)
  match based.2 with
  | c :: _ =>
    if (digitInBase based.1 c).isSome then
      some (signed.1 * (parseDigitsAux based.1 0 based.2 : Nat))
    else none
  | [] => none

/-- `Number.parseInt(x) || d`: `NaN` (and `0`) fall back to the default. -/
def numOrDefault (v : Option Int) (d : Int) : Int :=
  match v with
  | none => d
  | some n => if n = 0 then d else n

/-- `parts[i]` may be `undefined`; `Number.parseInt(undefined)` parses the
string `"undefined"`, which has no digits, hence `NaN`. -/
def jsParseIntOpt (o : Option String) : Option Int :=
  match o with
  | none => none
  | some s => jsParseInt s

/-- JS `a || d` on an optional string argument. -/
def strOrDefault (o : Option String) (d : String) : String :=
  match o with
  | none => d
  | some s => if s = "" then d else s

/-- The search request built by the console loop (`chatLoop`):
`locale = parts[2] || this.defaultLocale`,
`page = Number.parseInt(parts[3]) || 1`,
`per_page = Number.parseInt(parts[4]) || 20`, all passed explicitly to
`searchArticles`. -/
def chatSearchRequest (cfg : ZendeskConfig) (query : String)
    (localeArg pageArg perPageArg : Option String) : HttpRequest :=
  buildSearchRequest cfg
    { query := query
      locale := some (strOrDefault localeArg (clientDefaultLocale cfg))
      page := some (numOrDefault (jsParseIntOpt pageArg) 1)
      per_page := some (numOrDefault (jsParseIntOpt perPageArg) 20) }

-- ### Transport and the two retrieval operations
-- The HTTP call is an external collaborator; we model it as a function
-- from the call index to a result, so that the number of calls an
-- operation makes is part of the embedding ((result, calls made)).

structure TransportError where
  message : String
deriving DecidableEq

structure ZendeskSearchResponse where
  results : Option (List RawArticle)
  count : Int
  next_page : Option String
  previous_page : Option String

structure ZendeskArticleResponse where
  article : Option RawArticle

structure ProjectedSearchResponse where
  results : Option (List ProjectedRecord)
  count : Int
  next_page : Option String
  previous_page : Option String
deriving DecidableEq

structure ProjectedArticleResponse where
  article : Option ProjectedRecord
deriving DecidableEq

/-- `makeRequest`: performs one transport call; a thrown error is logged
and rethrown as the same value (`throw error`). -/
def makeRequest (A : Type) (transport : Nat → Except TransportError A)
    (calls : Nat) : Except TransportError A × Nat :=
  match transport calls with
  | Except.ok d => (Except.ok d, calls + 1)
  | Except.error e => (Except.error e, calls + 1)

/-- `if (data.results && Array.isArray(data.results))` then map the
projection over it, else leave the field untouched. -/
def projectSearchResponse (d : ZendeskSearchResponse) : ProjectedSearchResponse :=
  { results := d.results.map (List.map projectSearchArticle)
    count := d.count
    next_page := d.next_page
    previous_page := d.previous_page }

/-- `if (data.article)` then replace it by the filtered article. -/
def projectArticleResponse (d : ZendeskArticleResponse) : ProjectedArticleResponse :=
  { article := d.article.map projectArticleWithBody }

/-- `searchArticles` after the request is built: one `makeRequest` call,
then projection; an error propagates (no catch in the operation). -/
def searchArticlesOp (transport : Nat → Except TransportError ZendeskSearchResponse) :
    Except TransportError ProjectedSearchResponse × Nat :=
  match makeRequest ZendeskSearchResponse transport 0 with
  | (Except.ok d, n) => (Except.ok (projectSearchResponse d), n)
  | (Except.error e, n) => (Except.error e, n)

/-- `getArticle` after the request is built, same shape. -/
def getArticleOp (transport : Nat → Except TransportError ZendeskArticleResponse) :
    Except TransportError ProjectedArticleResponse × Nat :=
  match makeRequest ZendeskArticleResponse transport 0 with
  | (Except.ok d, n) => (Except.ok (projectArticleResponse d), n)
  | (Except.error e, n) => (Except.error e, n)

-- ### Generic facts about the replacement scan

theorem matchCILit_length : ∀ (p l r : List Char), matchCILit p l = some r →
    p.length + r.length = l.length := by
  intro p
  induction p with
  | nil => intro l r h; simp [matchCILit] at h; simp [h]
  | cons c cs ih =>
    intro l r h
    cases l with
    | nil => simp [matchCILit] at h
    | cons d ds =>
      simp only [matchCILit] at h
      split at h
      · have := ih ds r h
        simp only [List.length_cons]
        omega
      · exact absurd h (by simp)

theorem replaceScanF_id (m : List Char → Option (List Char × Nat))
    (P : Char → Prop) (hm : ∀ c cs, P c → m (c :: cs) = none) :
    ∀ fuel l, (∀ a ∈ l, P a) → replaceScanF m fuel l = l := by
  intro fuel
  induction fuel with
  | zero => intro l _; cases l <;> rfl
  | succ fuel ih =>
    intro l hl
    cases l with
    | nil => rfl
    | cons c cs =>
      have hc : m (c :: cs) = none := hm c cs (hl c (by simp))
      simp only [replaceScanF, hc]
      rw [ih cs (fun a ha => hl a (by simp [ha]))]

theorem replaceScanF_shrink (m : List Char → Option (List Char × Nat))
    (hm : ∀ l r n, m l = some (r, n) → r.length < n ∧ n ≤ l.length) :
    ∀ fuel l, l.length ≤ fuel →
      (replaceScanF m fuel l).length ≤ l.length ∧
      ((replaceScanF m fuel l).length = l.length → replaceScanF m fuel l = l) := by
  intro fuel
  induction fuel with
  | zero =>
    intro l hl
    have : l = [] := by cases l <;> simp_all
    subst this
    simp [replaceScanF]
  | succ fuel ih =>
    intro l hl
    cases l with
    | nil => simp [replaceScanF]
    | cons c cs =>
      cases hmc : m (c :: cs) with
      | none =>
        have h := ih cs (by simp at hl; omega)
        simp only [replaceScanF, hmc]
        constructor
        · simp; omega
        · intro he
          simp at he
          rw [h.2 (by omega)]
      | some p =>
        obtain ⟨r, n⟩ := p
        have hb := hm (c :: cs) r n hmc
        have hdl : (cs.drop (n - 1)).length = cs.length - (n - 1) :=
          List.length_drop _ _
        have h := ih (cs.drop (n - 1)) (by simp at hl ⊢; omega)
        simp only [replaceScanF, hmc]
        have hlen : (r ++ replaceScanF m fuel (cs.drop (n - 1))).length <
            (c :: cs).length := by
          simp only [List.length_append, List.length_cons] at *
          omega
        constructor
        · omega
        · intro he; omega

theorem replaceScanF_keeps_absent (m : List Char → Option (List Char × Nat))
    (x : Char) (hm : ∀ l r n, m l = some (r, n) → x ∉ r) :
    ∀ fuel l, (∀ a ∈ l, a ≠ x) → ∀ a ∈ replaceScanF m fuel l, a ≠ x := by
  intro fuel
  induction fuel with
  | zero =>
    intro l hl
    cases l with
    | nil => simp [replaceScanF]
    | cons c cs => simpa [replaceScanF] using hl
  | succ fuel ih =>
    intro l hl
    cases l with
    | nil => simp [replaceScanF]
    | cons c cs =>
      cases hmc : m (c :: cs) with
      | none =>
        simp only [replaceScanF, hmc]
        intro a ha
        rcases List.mem_cons.1 ha with h | h
        · exact h ▸ hl c (by simp)
        · exact ih cs (fun b hb => hl b (by simp [hb])) a h
      | some p =>
        obtain ⟨r, n⟩ := p
        simp only [replaceScanF, hmc]
        intro a ha
        rcases List.mem_append.1 ha with h | h
        · intro he; exact hm (c :: cs) r n hmc (he ▸ h)
        · exact ih (cs.drop (n - 1))
            (fun b hb => hl b (by simp [List.drop_subset _ _ hb]))
            a h

-- ### Facts about the individual matchers

theorem matchAttr_spec (nm l : List Char) (r : List Char) (n : Nat)
    (h : matchAttr nm l = some (r, n)) : r = [] ∧ 1 ≤ n ∧ n ≤ l.length := by
  cases l with
  | nil => simp [matchAttr] at h
  | cons c cs =>
    simp only [matchAttr] at h
    split at h
    · split at h
      · rename_i rest2 q rest3 hcl
        split at h
        · split at h
          · rename_i q2 t hdrop
            split at h
            · have hws : (cs.takeWhile isJsSpace).length ≤ cs.length :=
                (List.takeWhile_sublist _).length_le
              have hlit := matchCILit_length nm _ _ hcl
              have hv : (rest3.takeWhile (fun c => !(isQuote c))).length ≤ rest3.length :=
                (List.takeWhile_sublist _).length_le
              have hd2 := List.length_drop
                (rest3.takeWhile (fun c => !(isQuote c))).length rest3
              have hd1 := List.length_drop (cs.takeWhile isJsSpace).length cs
              rw [hdrop] at hd2
              rw [hd1] at hlit
              injection h with h'
              injection h' with hr hn
              refine ⟨hr.symm, ?_, ?_⟩
              all_goals simp only [← hn, List.length_cons] at *
              all_goals omega
            · simp at h
          · simp at h
        · simp at h
      · simp at h
    · simp at h

theorem lastIdxOf_lt_length (t : Char) : ∀ (l : List Char) (j : Nat),
    lastIdxOf t l = some j → j < l.length := by
  intro l
  induction l with
  | nil => intro j h; simp [lastIdxOf] at h
  | cons a as ih =>
    intro j h
    simp only [lastIdxOf] at h
    split at h
    · rename_i j' hr
      injection h with h'
      have := ih j' hr
      simp [← h']
      omega
    · split at h
      · injection h with h'
        simp [← h']
      · simp at h

theorem matchBlankRun_spec (l : List Char) (r : List Char) (n : Nat)
    (h : matchBlankRun l = some (r, n)) : r = ['\n'] ∧ 2 ≤ n ∧ n ≤ l.length := by
  cases l with
  | nil => simp [matchBlankRun] at h
  | cons c cs =>
    simp only [matchBlankRun] at h
    split at h
    · cases hj : lastIdxOf '\n' (cs.takeWhile isJsSpace) with
      | some j =>
        rw [hj] at h
        injection h with h'
        injection h' with hr hn
        have hjl := lastIdxOf_lt_length _ _ _ hj
        have hws : (cs.takeWhile isJsSpace).length ≤ cs.length :=
          (List.takeWhile_sublist _).length_le
        refine ⟨hr.symm, by omega, by simp [List.length_cons]; omega⟩
      | none =>
        rw [hj] at h
        simp at h
    · simp at h

theorem matchEmptyTag_none (c : Char) (cs : List Char) (h : c ≠ '<') :
    matchEmptyTag (c :: cs) = none := by
  simp [matchEmptyTag, h]

theorem charCIEq_lt_false (c : Char) (h : c ≠ '<') : charCIEq '<' c = false := by
  have h1 : ('<' == c) = false := by
    simp only [beq_eq_false_iff_ne, ne_eq]
    exact fun e => h e.symm
  have h2 : upperLowerPair '<' c = false := by
    simp [upperLowerPair, isAsciiUpper]
  have h3 : upperLowerPair c '<' = false := by
    by_cases hq : Char.toNat '<' = c.toNat + 32
    · have h28 : c.toNat = 28 := by
        have h60 : Char.toNat '<' = 60 := by decide
        omega
      have hup : isAsciiUpper c = false := by
        simp only [isAsciiUpper, decide_eq_false_iff_not]
        omega
      simp [upperLowerPair, hup]
    · have h60 : Char.toNat '<' = 60 := by decide
      rw [h60] at hq
      simp only [upperLowerPair, Bool.and_eq_false_iff, decide_eq_false_iff_not]
      right
      omega
  simp [charCIEq, h1, h2, h3]

theorem matchCILit_lt_none (nm : List Char) (c : Char) (cs : List Char)
    (h : c ≠ '<') : matchCILit ('<' :: nm) (c :: cs) = none := by
  simp [matchCILit, charCIEq_lt_false c h]

theorem matchWrapper_none (nm close : List Char) (c : Char) (cs : List Char)
    (h : c ≠ '<') : matchWrapper ('<' :: nm) close (c :: cs) = none := by
  rw [matchWrapper, matchCILit_lt_none nm c cs h]

theorem matchTdP_none (c : Char) (cs : List Char) (h : c ≠ '<') :
    matchTdP (c :: cs) = none := by
  rw [matchTdP, show ['<', 't', 'd', '>'] = '<' :: ['t', 'd', '>'] from rfl,
    matchCILit_lt_none _ c cs h]

-- ### Behaviour of the pipeline on strings containing no '<'

theorem scanEmpty_id (l : List Char) (h : ∀ a ∈ l, a ≠ '<') :
    replaceScan matchEmptyTag l = l :=
  replaceScanF_id matchEmptyTag (fun c => c ≠ '<')
    (fun c cs hc => matchEmptyTag_none c cs hc) l.length l h

theorem scanSpan_id (l : List Char) (h : ∀ a ∈ l, a ≠ '<') :
    replaceScan (matchWrapper ['<', 's', 'p', 'a', 'n']
      ['<', '/', 's', 'p', 'a', 'n', '>']) l = l :=
  replaceScanF_id _ (fun c => c ≠ '<')
    (fun c cs hc => matchWrapper_none ['s', 'p', 'a', 'n'] _ c cs hc) l.length l h

theorem scanFont_id (l : List Char) (h : ∀ a ∈ l, a ≠ '<') :
    replaceScan (matchWrapper ['<', 'f', 'o', 'n', 't']
      ['<', '/', 'f', 'o', 'n', 't', '>']) l = l :=
  replaceScanF_id _ (fun c => c ≠ '<')
    (fun c cs hc => matchWrapper_none ['f', 'o', 'n', 't'] _ c cs hc) l.length l h

theorem scanTd_id (l : List Char) (h : ∀ a ∈ l, a ≠ '<') :
    replaceScan matchTdP l = l :=
  replaceScanF_id _ (fun c => c ≠ '<')
    (fun c cs hc => matchTdP_none c cs hc) l.length l h

theorem scanAttr_shrink (nm l : List Char) :
    (replaceScan (matchAttr nm) l).length ≤ l.length ∧
    ((replaceScan (matchAttr nm) l).length = l.length →
      replaceScan (matchAttr nm) l = l) :=
  replaceScanF_shrink _
    (fun l' r n hm => by
      obtain ⟨hr, h1, h2⟩ := matchAttr_spec nm l' r n hm
      subst hr
      exact ⟨by simpa using h1, h2⟩) l.length l le_rfl

theorem scanAttr_no_lt (nm l : List Char) (h : ∀ a ∈ l, a ≠ '<') :
    ∀ a ∈ replaceScan (matchAttr nm) l, a ≠ '<' :=
  replaceScanF_keeps_absent _ '<'
    (fun l' r n hm => by rw [(matchAttr_spec nm l' r n hm).1]; simp)
    l.length l h

theorem scanBlank_shrink (l : List Char) :
    (replaceScan matchBlankRun l).length ≤ l.length ∧
    ((replaceScan matchBlankRun l).length = l.length →
      replaceScan matchBlankRun l = l) :=
  replaceScanF_shrink _
    (fun l' r n hm => by
      obtain ⟨hr, h1, h2⟩ := matchBlankRun_spec l' r n hm
      subst hr
      exact ⟨by simpa using h1, h2⟩) l.length l le_rfl

theorem scanBlank_no_lt (l : List Char) (h : ∀ a ∈ l, a ≠ '<') :
    ∀ a ∈ replaceScan matchBlankRun l, a ≠ '<' :=
  replaceScanF_keeps_absent _ '<'
    (fun l' r n hm => by rw [(matchBlankRun_spec l' r n hm).1]; simp)
    l.length l h

theorem data_removeEmptyTags (s : String) :
    (removeEmptyTags s).data = replaceScan matchEmptyTag s.data := rfl

theorem data_stripStyleAttrs (s : String) :
    (stripStyleAttrs s).data =
      replaceScan (matchAttr ['s', 't', 'y', 'l', 'e', '=']) s.data := rfl

theorem data_stripIdAttrs (s : String) :
    (stripIdAttrs s).data = replaceScan (matchAttr ['i', 'd', '=']) s.data := rfl

theorem data_stripClassAttrs (s : String) :
    (stripClassAttrs s).data =
      replaceScan (matchAttr ['c', 'l', 'a', 's', 's', '=']) s.data := rfl

theorem data_stripTargetAttrs (s : String) :
    (stripTargetAttrs s).data =
      replaceScan (matchAttr ['t', 'a', 'r', 'g', 'e', 't', '=']) s.data := rfl

theorem data_stripBorderAttrs (s : String) :
    (stripBorderAttrs s).data =
      replaceScan (matchAttr ['b', 'o', 'r', 'd', 'e', 'r', '=']) s.data := rfl

theorem data_unwrapSpanTags (s : String) :
    (unwrapSpanTags s).data =
      replaceScan (matchWrapper ['<', 's', 'p', 'a', 'n']
        ['<', '/', 's', 'p', 'a', 'n', '>']) s.data := rfl

theorem data_unwrapFontTags (s : String) :
    (unwrapFontTags s).data =
      replaceScan (matchWrapper ['<', 'f', 'o', 'n', 't']
        ['<', '/', 'f', 'o', 'n', 't', '>']) s.data := rfl

theorem data_collapseBlankLines (s : String) :
    (collapseBlankLines s).data = replaceScan matchBlankRun s.data := rfl

theorem data_collapseTdParagraphs (s : String) :
    (collapseTdParagraphs s).data = replaceScan matchTdP s.data := rfl

/-- On a string with no `<`, the pipeline being the identity forces every
attribute-stripping stage and the blank-line stage to be the identity. -/
theorem cleanHtml_id_forces_stages (s : String) (hfree : ∀ a ∈ s.data, a ≠ '<')
    (hid : cleanHtmlString s = s) :
    stripStyleAttrs s = s ∧ stripIdAttrs s = s ∧ stripClassAttrs s = s ∧
    stripTargetAttrs s = s ∧ stripBorderAttrs s = s ∧
    collapseBlankLines s = s := by
  have hid' : (cleanHtmlString s).data = s.data := congrArg String.data hid
  set l := s.data with hl
  set a1 := replaceScan (matchAttr ['s', 't', 'y', 'l', 'e', '=']) l with ha1
  set a2 := replaceScan (matchAttr ['i', 'd', '=']) a1 with ha2
  set a3 := replaceScan (matchAttr ['c', 'l', 'a', 's', 's', '=']) a2 with ha3
  set a4 := replaceScan (matchAttr ['t', 'a', 'r', 'g', 'e', 't', '=']) a3 with ha4
  set a5 := replaceScan (matchAttr ['b', 'o', 'r', 'd', 'e', 'r', '=']) a4 with ha5
  set a6 := replaceScan matchBlankRun a5 with ha6
  have h1 : ∀ a ∈ a1, a ≠ '<' := scanAttr_no_lt _ l hfree
  have h2 : ∀ a ∈ a2, a ≠ '<' := scanAttr_no_lt _ a1 h1
  have h3 : ∀ a ∈ a3, a ≠ '<' := scanAttr_no_lt _ a2 h2
  have h4 : ∀ a ∈ a4, a ≠ '<' := scanAttr_no_lt _ a3 h3
  have h5 : ∀ a ∈ a5, a ≠ '<' := scanAttr_no_lt _ a4 h4
  have h6 : ∀ a ∈ a6, a ≠ '<' := scanBlank_no_lt a5 h5
  have hcomp : (cleanHtmlString s).data = a6 := by
    simp only [cleanHtmlString, data_collapseTdParagraphs, data_collapseBlankLines,
      data_unwrapFontTags, data_unwrapSpanTags, data_stripBorderAttrs,
      data_stripTargetAttrs, data_stripClassAttrs, data_stripIdAttrs,
      data_stripStyleAttrs, data_removeEmptyTags]
    rw [scanEmpty_id l hfree, ← ha1, ← ha2, ← ha3, ← ha4, ← ha5,
      scanSpan_id a5 h5, scanFont_id a5 h5, ← ha6, scanTd_id a6 h6]
  have ha6l : a6 = l := by rw [← hcomp, hid']
  have s1 := scanAttr_shrink ['s', 't', 'y', 'l', 'e', '='] l
  have s2 := scanAttr_shrink ['i', 'd', '='] a1
  have s3 := scanAttr_shrink ['c', 'l', 'a', 's', 's', '='] a2
  have s4 := scanAttr_shrink ['t', 'a', 'r', 'g', 'e', 't', '='] a3
  have s5 := scanAttr_shrink ['b', 'o', 'r', 'd', 'e', 'r', '='] a4
  have s6 := scanBlank_shrink a5
  rw [← ha1] at s1
  rw [← ha2] at s2
  rw [← ha3] at s3
  rw [← ha4] at s4
  rw [← ha5] at s5
  rw [← ha6] at s6
  have hlen : a6.length = l.length := by rw [ha6l]
  have q1 : a1 = l := s1.2 (by omega)
  have q2 : a2 = a1 := s2.2 (by omega)
  have q3 : a3 = a2 := s3.2 (by omega)
  have q4 : a4 = a3 := s4.2 (by omega)
  have q5 : a5 = a4 := s5.2 (by omega)
  have q6 : a6 = a5 := s6.2 (by omega)
  have w1 : a1 = l := q1
  have w2 : a2 = l := q2.trans w1
  have w3 : a3 = l := q3.trans w2
  have w4 : a4 = l := q4.trans w3
  have w5 : a5 = l := q5.trans w4
  have w6 : a6 = l := q6.trans w5
  refine ⟨?_, ?_, ?_, ?_, ?_, ?_⟩
  · apply String.ext
    rw [data_stripStyleAttrs, ← hl, ← ha1, w1]
  · apply String.ext
    rw [data_stripIdAttrs, ← hl, ← w1, ← ha2, w2, hl]
    rw [← hl, w1]
  · apply String.ext
    rw [data_stripClassAttrs, ← hl, ← w2, ← ha3, w3, hl]
    rw [← hl, w2]
  · apply String.ext
    rw [data_stripTargetAttrs, ← hl, ← w3, ← ha4, w4, hl]
    rw [← hl, w3]
  · apply String.ext
    rw [data_stripBorderAttrs, ← hl, ← w4, ← ha5, w5, hl]
    rw [← hl, w4]
  · apply String.ext
    rw [data_collapseBlankLines, ← hl, ← w5, ← ha6, w6, hl]
    rw [← hl, w5]

-- ### Claims

/-- Claim C1, counterexample: on the empty raw article the search projection
still contains the key id (with undefined value) even though no field is
present in the raw article, so the output does not contain exactly those of
the eight fields present in R. -/
theorem c1_search_projection_counterexample :
    fieldNames (projectSearchArticle []) = searchAllowList ∧
    "id" ∈ fieldNames (projectSearchArticle []) ∧
    "id" ∉ rawKeys ([] : RawArticle) := by decide

/-- Claim C1 (amended): the search projection always has exactly the eight
allow-listed fields as its field set (a field missing from R appears with
undefined value rather than being absent), hence the field set is a subset
of the allow-list; the body key is never present, and every allow-listed
field carries exactly the raw property value. -/
theorem c1_search_projection_fields (a : RawArticle) (k : String)
    (hk : k ∈ fieldNames (projectSearchArticle a)) (k2 : String)
    (hk2 : k2 ∈ searchAllowList) :
    fieldNames (projectSearchArticle a) = searchAllowList ∧
    "body" ∉ fieldNames (projectSearchArticle a) ∧
    k ∈ searchAllowList ∧
    (projectSearchArticle a).lookup k2 = some (getProp a k2) := by
  have hf : fieldNames (projectSearchArticle a) = searchAllowList := rfl
  refine ⟨hf, by rw [hf]; decide, by rw [hf] at hk; exact hk, ?_⟩
  fin_cases hk2 <;> rfl

/-- Claim C1 witness: the amended statement evaluated on a one-field raw
article. -/
theorem c1_search_projection_fields_witness :
    fieldNames (projectSearchArticle [("id", JsValue.vNum 1)]) = searchAllowList ∧
    "body" ∉ fieldNames (projectSearchArticle [("id", JsValue.vNum 1)]) ∧
    "id" ∈ searchAllowList ∧
    (projectSearchArticle [("id", JsValue.vNum 1)]).lookup "title" =
      some (getProp [("id", JsValue.vNum 1)] "title") :=
  c1_search_projection_fields [("id", JsValue.vNum 1)] "id" (by decide) "title"
    (by decide)

/-- Claim C2: in the getArticle projection the body field is exactly the
normalizer applied to the raw body, and each of the eight allow-listed
fields is copied verbatim. -/
theorem c2_article_projection_body (a : RawArticle) (k : String)
    (hk : k ∈ searchAllowList) :
    (projectArticleWithBody a).lookup "body" =
      some ((cleanHtmlContent (getBodyStr a)).map JsValue.vStr) ∧
    (projectArticleWithBody a).lookup k = some (getProp a k) := by
  refine ⟨rfl, ?_⟩
  fin_cases hk <;> rfl

/-- Claim C2 witness: the projection evaluated on a concrete raw article
whose body holds markup. -/
theorem c2_article_projection_body_witness :
    (projectArticleWithBody [("body", JsValue.vStr "<td><p>Cell</p></td>")]).lookup
        "body" =
      some ((cleanHtmlContent
        (getBodyStr [("body", JsValue.vStr "<td><p>Cell</p></td>")])).map
          JsValue.vStr) ∧
    (projectArticleWithBody [("body", JsValue.vStr "<td><p>Cell</p></td>")]).lookup
        "id" =
      some (getProp [("body", JsValue.vStr "<td><p>Cell</p></td>")] "id") :=
  c2_article_projection_body [("body", JsValue.vStr "<td><p>Cell</p></td>")] "id"
    (by decide)

/-- Claim C3, counterexample: the input is free of the five attributes and of
span and font wrappers (each of those stages is the identity on it), yet one
application of the normalizer is not a fixed point: removing the
whitespace-only p pair creates a new empty div pair which only the second
application removes. -/
theorem c3_idempotence_counterexample :
    (stripStyleAttrs "<div><p> </p></div>" = "<div><p> </p></div>" ∧
     stripIdAttrs "<div><p> </p></div>" = "<div><p> </p></div>" ∧
     stripClassAttrs "<div><p> </p></div>" = "<div><p> </p></div>" ∧
     stripTargetAttrs "<div><p> </p></div>" = "<div><p> </p></div>" ∧
     stripBorderAttrs "<div><p> </p></div>" = "<div><p> </p></div>" ∧
     unwrapSpanTags "<div><p> </p></div>" = "<div><p> </p></div>" ∧
     unwrapFontTags "<div><p> </p></div>" = "<div><p> </p></div>") ∧
    cleanHtmlString (cleanHtmlString "<div><p> </p></div>") ≠
      cleanHtmlString "<div><p> </p></div>" := by decide

/-- Claim C3 (amended): the normalizer is idempotent on every string on
which each individual rewrite stage is the identity — free of
whitespace-only tag pairs, of the five stripped attributes, of span and
font wrappers, of blank-line runs and of td-wrapped paragraphs; on such a
string one application is already a fixed point. -/
theorem c3_normalize_idempotent (s : String)
    (h1 : removeEmptyTags s = s) (h2 : stripStyleAttrs s = s)
    (h3 : stripIdAttrs s = s) (h4 : stripClassAttrs s = s)
    (h5 : stripTargetAttrs s = s) (h6 : stripBorderAttrs s = s)
    (h7 : unwrapSpanTags s = s) (h8 : unwrapFontTags s = s)
    (h9 : collapseBlankLines s = s) (h10 : collapseTdParagraphs s = s) :
    cleanHtmlString (cleanHtmlString s) = cleanHtmlString s := by
  have hs : cleanHtmlString s = s := by
    simp only [cleanHtmlString]
    rw [h1, h2, h3, h4, h5, h6, h7, h8, h9, h10]
  rw [hs]
  exact hs

/-- Claim C3 witness: idempotence on a concrete stage-free string. -/
theorem c3_normalize_idempotent_witness :
    cleanHtmlString (cleanHtmlString "Hello") = cleanHtmlString "Hello" :=
  c3_normalize_idempotent "Hello" (by decide) (by decide) (by decide) (by decide)
    (by decide) (by decide) (by decide) (by decide) (by decide) (by decide)

/-- Claim C4: when the console loop receives non-numeric page and per_page
arguments, the built search request carries page 1 and per_page 20 (silent
fallback, no error). -/
theorem c4_nonnumeric_page_fallback (cfg : ZendeskConfig) (q : String)
    (loc : Option String) (pa ppa : String)
    (hpa : jsParseInt pa = none) (hppa : jsParseInt ppa = none) :
    lookupParam (chatSearchRequest cfg q loc (some pa) (some ppa)) "page" =
      some (ParamValue.pNum 1) ∧
    lookupParam (chatSearchRequest cfg q loc (some pa) (some ppa)) "per_page" =
      some (ParamValue.pNum 20) := by
  have h1 : numOrDefault (jsParseIntOpt (some pa)) 1 = 1 := by
    simp [jsParseIntOpt, hpa, numOrDefault]
  have h2 : numOrDefault (jsParseIntOpt (some ppa)) 20 = 20 := by
    simp [jsParseIntOpt, hppa, numOrDefault]
  constructor
  · show some (ParamValue.pNum (numOrDefault (jsParseIntOpt (some pa)) 1)) = _
    rw [h1]
  · show some (ParamValue.pNum (numOrDefault (jsParseIntOpt (some ppa)) 20)) = _
    rw [h2]

/-- Claim C4 witness: the fallback on the literal argument abc. -/
theorem c4_nonnumeric_page_fallback_witness :
    lookupParam (chatSearchRequest ⟨"mycompany", "me@example.com", "secret", none⟩
      "billing" none (some "abc") (some "xyz")) "page" =
      some (ParamValue.pNum 1) ∧
    lookupParam (chatSearchRequest ⟨"mycompany", "me@example.com", "secret", none⟩
      "billing" none (some "abc") (some "xyz")) "per_page" =
      some (ParamValue.pNum 20) :=
  c4_nonnumeric_page_fallback ⟨"mycompany", "me@example.com", "secret", none⟩
    "billing" none "abc" "xyz" (by decide) (by decide)

/-- Claim C5: a transport failure propagates out of both operations as the
very same error value, after exactly one transport call (no retry), with no
partial result. -/
theorem c5_request_failure_propagates
    (tr : Nat → Except TransportError ZendeskSearchResponse)
    (tr2 : Nat → Except TransportError ZendeskArticleResponse)
    (e e2 : TransportError)
    (h : tr 0 = Except.error e) (h2 : tr2 0 = Except.error e2) :
    searchArticlesOp tr = (Except.error e, 1) ∧
    getArticleOp tr2 = (Except.error e2, 1) := by
  constructor
  · simp [searchArticlesOp, makeRequest, h]
  · simp [getArticleOp, makeRequest, h2]

/-- Claim C5 witness: concrete failing transports. -/
theorem c5_request_failure_propagates_witness :
    searchArticlesOp (fun _ => Except.error ⟨"network error"⟩) =
      (Except.error ⟨"network error"⟩, 1) ∧
    getArticleOp (fun _ => Except.error ⟨"http 500"⟩) =
      (Except.error ⟨"http 500"⟩, 1) :=
  c5_request_failure_propagates (fun _ => Except.error ⟨"network error"⟩)
    (fun _ => Except.error ⟨"http 500"⟩) ⟨"network error"⟩ ⟨"http 500"⟩ rfl rfl

/-- Claim C6: a search call with locale, page and per_page omitted builds
the request against base/articles/search.json carrying the query, the
configured default locale, page 1 and per_page 20, with Basic auth username
email/token and password the API token; an absent configured locale
defaults to en, and the base url comes from the subdomain. -/
theorem c6_search_request_defaults (cfg : ZendeskConfig) (q : String) :
    buildSearchRequest cfg
        { query := q, locale := none, page := none, per_page := none } =
      { url := clientBaseUrl cfg ++ "/articles/search.json"
        params := [("query", ParamValue.pStr q),
          ("locale", ParamValue.pStr (clientDefaultLocale cfg)),
          ("page", ParamValue.pNum 1), ("per_page", ParamValue.pNum 20)]
        auth := { username := cfg.email ++ "/token",
                  password := cfg.apiToken } } ∧
    clientDefaultLocale { cfg with defaultLocale := none } = "en" ∧
    clientBaseUrl cfg =
      "https://" ++ cfg.subdomain ++ ".zendesk.com/api/v2/help_center" :=
  ⟨rfl, rfl, rfl⟩

/-- Claim C7: a tag pair whose only content is whitespace (including
newlines) is removed when the closing tag name matches the opening one. -/
theorem c7_empty_tag_removal :
    cleanHtmlContent (some "<p> </p>Hello<h3>\n</h3>") = some "Hello" := by
  decide

/-- Claim C8: class and style attributes are stripped and the span wrapper
is then deleted keeping its content. -/
theorem c8_span_unwrap :
    cleanHtmlContent
        (some "<span class=\"x\" style=\"color:red\">Bold</span>") =
      some "Bold" := by
  decide

/-- Claim C9: a paragraph wrapping the whole content of a table cell is
collapsed, keeping the content. -/
theorem c9_td_paragraph_collapse :
    cleanHtmlContent (some "<td><p>Cell</p></td>") = some "<td>Cell</td>" := by
  decide

/-- Claim C10: attribute stripping is purely lexical: a plain-text input
with no angle bracket is still rewritten when it contains an
attribute-shaped substring; and on angle-bracket-free strings the
normalizer is the identity only if every attribute-stripping stage and the
blank-line stage are already the identity. -/
theorem c10_attribute_stripping_lexical :
    (cleanHtmlContent (some "hello style=\"red\" world") = some "hello world" ∧
      ∀ a ∈ "hello style=\"red\" world".data, a ≠ '<') ∧
    (∀ s : String, (∀ a ∈ s.data, a ≠ '<') → cleanHtmlString s = s →
      stripStyleAttrs s = s ∧ stripIdAttrs s = s ∧ stripClassAttrs s = s ∧
      stripTargetAttrs s = s ∧ stripBorderAttrs s = s ∧
      collapseBlankLines s = s) :=
  ⟨⟨by decide, by decide⟩,
    fun s h1 h2 => cleanHtml_id_forces_stages s h1 h2⟩

/-- Claim C10 witness: the only-if direction evaluated at a concrete
angle-bracket-free fixed point. -/
theorem c10_attribute_stripping_lexical_witness :
    stripStyleAttrs "plain text" = "plain text" ∧
    stripIdAttrs "plain text" = "plain text" ∧
    stripClassAttrs "plain text" = "plain text" ∧
    stripTargetAttrs "plain text" = "plain text" ∧
    stripBorderAttrs "plain text" = "plain text" ∧
    collapseBlankLines "plain text" = "plain text" :=
  c10_attribute_stripping_lexical.2 "plain text" (by decide) (by decide)
